import Mathlib

/-!
Verification of the file-selection and pipeline-orchestration engine of
`src/format_code.py` (a Python script that runs autoflake, isort, black and
ruff over a selected set of files).

Shallow embedding conventions:
* Python dicts of strings (`os.environ` and its copies) are association
  lists (`Env`); dict identity/mutation, where it matters, is modelled by a
  small heap of dicts (`Heap`) so that `dict.copy()` (fresh allocation) is
  distinguishable from aliasing.
* `subprocess.run` is modelled by an oracle value `SpawnOutcome`: either the
  executable cannot be spawned (`fault`, a raised `FileNotFoundError` /
  `PermissionError`), or the child ran and terminated with a given exit
  code, stdout and stderr.  Raised Python exceptions are `Except.error`.
* File-system paths are lists of path components, already absolute and
  normalized; `Path.resolve()` is the identity on such paths.  The ambient
  file system is a predicate `Path → Bool` telling which paths exist.
* Python's `set(...)` collapses duplicates with arbitrary iteration order;
  it is modelled by a membership-faithful deduplication (`pydedup`).
-/

/-- A Python `dict[str, str]` as an association list (first binding wins on
lookup, matching dict key uniqueness). -/
abbrev Env := List (String × String)

/-- Dict lookup `d[k]` (as `Option`). -/
def envGet : Env → String → Option String
  | [], _ => none
  | (k', v) :: rest, k => if k' = k then some v else envGet rest k

/-- Dict assignment `d[k] = v`: update the existing binding for `k`, or
append a new binding. -/
def envSet : Env → String → String → Env
  | [], k, v => [(k, v)]
  | (k', v') :: rest, k, v =>
      if k' = k then (k, v) :: rest else (k', v') :: envSet rest k v

/-- A heap of dict objects, indexed by allocation order.  Index 0 is
`os.environ`. -/
structure Heap where
  dicts : List Env

/-- Read the dict stored at reference `r`. -/
def Heap.get (h : Heap) (r : Nat) : Env := (h.dicts.get? r).getD []

/-- Overwrite the dict stored at reference `r`. -/
def Heap.set (h : Heap) (r : Nat) (e : Env) : Heap := ⟨h.dicts.set r e⟩

/-- Allocate a fresh dict object, returning its reference. -/
def Heap.alloc (h : Heap) (e : Env) : Nat × Heap :=
  (h.dicts.length, ⟨h.dicts ++ [e]⟩)

/-- The reference of the process-wide `os.environ` dict. -/
def osEnvironRef : Nat := 0

/-- `d.copy()`: allocate a fresh dict holding the same bindings. -/
def dictCopy (h : Heap) (r : Nat) : Nat × Heap := h.alloc (h.get r)

/-- `d[k] = v` through a dict reference. -/
def dictSetItem (h : Heap) (r : Nat) (k v : String) : Heap :=
  h.set r (envSet (h.get r) k v)

/-- `get_env` (src/format_code.py lines 47-52): copy `os.environ` and force
the three UTF-8 locale variables on the copy.  Returns the reference of the
new dict together with the resulting heap. -/
def get_env (h : Heap) : Nat × Heap :=
  let rh := dictCopy h osEnvironRef
  let h1 := dictSetItem rh.2 rh.1 "PYTHONIOENCODING" "utf-8"
  let h2 := dictSetItem h1 rh.1 "LC_ALL" "C.UTF-8"
  let h3 := dictSetItem h2 rh.1 "LANG" "C.UTF-8"
  (rh.1, h3)

/-- The `RunResult` dataclass (src/format_code.py lines 36-40). -/
structure RunResult where
  code : Int
  stdout : String
  stderr : String
  deriving DecidableEq

/-- A raised exception of the process-runner layer: `FileNotFoundError` /
`PermissionError` when the executable cannot be spawned, or
`subprocess.CalledProcessError` (only ever raised when `check=True` is
passed to `subprocess.run`, which this code base never does). -/
inductive SpawnErr where
  | fileNotFound
  | calledProcessError
  deriving DecidableEq

/-- Oracle for one `subprocess.run` invocation: either the spawn itself
fails, or the child process ran to completion with the given exit status
and decoded output streams. -/
inductive SpawnOutcome where
  | fault
  | ran (code : Int) (stdout stderr : String)
  deriving DecidableEq

/-- `subprocess.run(cmd, ..., check=check)`: raises on spawn failure; with
`check=True` it would additionally raise `CalledProcessError` on a nonzero
exit status; otherwise the exit status is returned as data. -/
def subprocess_run (o : SpawnOutcome) (check : Bool) : Except SpawnErr RunResult :=
  match o with
  | .fault => .error .fileNotFound
  | .ran code out err =>
      if check && (code != 0) then .error .calledProcessError
      else .ok ⟨code, out, err⟩

/-- `run_command` (src/format_code.py lines 55-69), result behaviour: it
calls `subprocess.run` without `check=True` and wraps the returncode,
stdout and stderr verbatim in a `RunResult`. -/
def run_command (o : SpawnOutcome) : Except SpawnErr RunResult :=
  subprocess_run o false

/-- The observable spawn request of one `run_command` call: the command
line and the environment dict handed to the child. -/
structure SpawnRequest where
  cmd : List String
  env : Env

/-- `run_command` (src/format_code.py lines 55-69), environment behaviour:
it builds the child environment via `get_env()` (which copies `os.environ`)
and passes it to `subprocess.run`.  Returns the spawn request together with
the heap after the call. -/
def run_command_env_effect (cmd : List String) (h : Heap) : SpawnRequest × Heap :=
  let rh := get_env h
  (⟨cmd, rh.2.get rh.1⟩, rh.2)

/-- `str.split(sep)` on a single-character separator (auxiliary, with the
reversed current chunk as accumulator). -/
def splitCharAux (sep : Char) : List Char → List Char → List String
  | [], acc => [String.mk acc.reverse]
  | c :: rest, acc =>
      if c = sep then String.mk acc.reverse :: splitCharAux sep rest []
      else splitCharAux sep rest (c :: acc)

/-- `str.split(sep)` on a single-character separator. -/
def splitChar (sep : Char) (s : String) : List String :=
  splitCharAux sep s.data []

/-- Python `str.splitlines()` restricted to `\n` separators: `""` yields
`[]` and a trailing newline does not produce a trailing empty line. -/
def splitlines (s : String) : List String :=
  let parts := splitChar (Char.ofNat 10) s
  if parts.getLast? = some "" then parts.dropLast else parts

/-- An absolute, normalized file-system path as its list of components. -/
abbrev FsPath := List String

/-- Parse a relative path string into components, the way `pathlib` does:
split on `/`, dropping empty components and `.` components. -/
def parseRel (file : String) : FsPath :=
  (splitChar (Char.ofNat 47) file).filter (fun c => !(c == "" || c == "."))

/-- Index (from the front) of the last occurrence of `.` in a name. -/
def lastDotIdx : List Char → Option Nat
  | [] => none
  | c :: rest =>
      match lastDotIdx rest with
      | some i => some (i + 1)
      | none => if c = '.' then some 0 else none

/-- `PurePath.suffix` of a file name: the substring from the last dot on,
provided that dot is neither the first nor the last character; otherwise
the empty string. -/
def pathSuffix (name : String) : String :=
  let cs := name.data
  match lastDotIdx cs with
  | some i => if 0 < i ∧ i < cs.length - 1 then String.mk (cs.drop i) else ""
  | none => ""

/-- `PurePath.name`: the final path component (empty for the empty path). -/
def lastName (p : FsPath) : String := (p.getLast?).getD ""

/-- Render a path as a string (components joined by `/`). -/
def pathToString (p : FsPath) : String := String.intercalate "/" p

/-- Modelled from the spec, for contrast only: the raw textual
string-prefix containment test (`str(path).startswith(str(subtree))`) that
the spec names as the unsafe alternative to path-aware containment.  In the
source it occurs only in the dead `except AttributeError` fallback of
`get_modified_py_files`. -/
def stringPrefixContains (dir p : FsPath) : Bool :=
  List.isPrefixOf (pathToString dir).data (pathToString p).data

/-- Python `set(...)` over a list of strings: duplicates collapse;
iteration order of the resulting set is arbitrary, so only membership in
the result is meaningful.  This model keeps the last occurrence. -/
def pydedup : List String → List String
  | [] => []
  | x :: rest => if x ∈ rest then pydedup rest else x :: pydedup rest

/-- The inner `git_diff` helper of `get_modified_py_files`
(src/format_code.py lines 73-75): run `git diff ...` and split its stdout
into lines.  Note that the exit status of git is ignored. -/
def git_diff (o : SpawnOutcome) : Except SpawnErr (List String) :=
  match run_command o with
  | .error e => .error e
  | .ok r => .ok (splitlines r.stdout)

/-- `get_modified_py_files` (src/format_code.py lines 72-96): union the
branch / staged / unstaged `git diff --name-only` outputs, and keep each
candidate, resolved against the repository root, iff it has suffix `.py`,
exists on disk, and lies under `dir_path` (`Path.is_relative_to`, a
component-wise prefix test; the `except AttributeError` textual fallback is
unreachable on interpreters that can load the file and is not modelled).
`o1, o2, o3` are the spawn oracles of the three git invocations. -/
def get_modified_py_files (root : FsPath) (fs : FsPath → Bool) (dir_path : FsPath)
    (o1 o2 o3 : SpawnOutcome) : Except SpawnErr (List FsPath) :=
  match git_diff o1 with
  | .error e => .error e
  | .ok branch_files =>
  match git_diff o2 with
  | .error e => .error e
  | .ok staged_files =>
  match git_diff o3 with
  | .error e => .error e
  | .ok unstaged_files =>
    let all_files := pydedup (branch_files ++ staged_files ++ unstaged_files)
    .ok (all_files.filterMap (fun file =>
      let abs_path := root ++ parseRel file
      if pathSuffix (lastName abs_path) = ".py" ∧ fs abs_path = true
          ∧ dir_path.isPrefixOf abs_path = true
      then some abs_path else none))

/-- Python truthiness of an optional string (`if s:`): `None` and the empty
string are falsy. -/
def optTruthy : Option String → Bool
  | none => false
  | some s => s != ""

/-- `sys.executable` (an opaque interpreter path). -/
def sysExecutable : String := "python3"

/-- `AutoflakeFormatter.run` (src/format_code.py lines 118-132), command
construction: base flags, `--in-place` added only when not in dry-run, then
the files as trailing arguments. -/
def autoflake_cmd (files : List String) (dry_run : Bool) : List String :=
  let cmd := [sysExecutable, "-m", "autoflake", "--remove-unused-variables",
              "--remove-all-unused-imports", "--recursive"]
  let cmd := if !dry_run then cmd ++ ["--in-place"] else cmd
  cmd ++ files

/-- `IsortFormatter.run` (src/format_code.py lines 135-151), command
construction: `--diff --check-only` added in dry-run, optional
`--py=<version>` pass-through, then the files. -/
def isort_cmd (files : List String) (dry_run : Bool) (py_version : Option String) :
    List String :=
  let cmd := [sysExecutable, "-m", "isort", "--profile", "black"]
  let cmd := if dry_run then cmd ++ ["--diff", "--check-only"] else cmd
  let cmd := if optTruthy py_version then cmd ++ ["--py=" ++ py_version.getD ""] else cmd
  cmd ++ files

/-- `BlackFormatter.run` (src/format_code.py lines 154-170), command
construction: `--check` added in dry-run, optional
`--target-version=py<version>`, then the files. -/
def black_cmd (files : List String) (dry_run : Bool) (py_version : Option String) :
    List String :=
  let cmd := [sysExecutable, "-m", "black"]
  let cmd := if dry_run then cmd ++ ["--check"] else cmd
  let cmd := if optTruthy py_version then
      cmd ++ ["--target-version=py" ++ py_version.getD ""] else cmd
  cmd ++ files

/-- `RuffFormatter.run` (src/format_code.py lines 173-182), command
construction: `--diff` in dry-run, `--fix --exit-zero` otherwise, then the
files. -/
def ruff_cmd (files : List String) (dry_run : Bool) : List String :=
  let cmd := [sysExecutable, "-m", "ruff", "check"]
  let cmd := if dry_run then cmd ++ ["--diff"] else cmd ++ ["--fix", "--exit-zero"]
  cmd ++ files

/-- The four formatter classes of src/format_code.py. -/
inductive FormatterKind where
  | autoflake
  | isort
  | black
  | ruff
  deriving DecidableEq

/-- Dispatch of `Formatter.run` command construction over the four
formatter classes (autoflake and ruff ignore the version hint, matching
their `**_` signatures). -/
def formatter_cmd (k : FormatterKind) (files : List String) (dry_run : Bool)
    (py_version : Option String) : List String :=
  match k with
  | .autoflake => autoflake_cmd files dry_run
  | .isort => isort_cmd files dry_run py_version
  | .black => black_cmd files dry_run py_version
  | .ruff => ruff_cmd files dry_run

/-- The `formatters` list of `format_code` (src/format_code.py lines
229-234), in construction order. -/
def formatterOrder : List FormatterKind :=
  [FormatterKind.autoflake, FormatterKind.isort, FormatterKind.black, FormatterKind.ruff]

/-- The argparse namespace consumed by `format_code` (src/format_code.py
lines 189-202): `--fast` and the positional filenames default to
`None`/`[]`; `--py` always carries a (nonempty) default string but is
modelled at its declared generality. -/
structure Args where
  debug : Bool
  fast : Option String
  dry : Bool
  py : Option String
  filenames : List String

/-- The `for path in dir_paths: files += get_modified_py_files(...)` loop
of `format_code` (src/format_code.py lines 214-216).  Each directory is
paired with the spawn oracles of its three git invocations; a raised
selector exception propagates. -/
def selectAll (root : FsPath) (fs : FsPath → Bool) :
    List (FsPath × SpawnOutcome × SpawnOutcome × SpawnOutcome) →
    Except SpawnErr (List FsPath)
  | [] => .ok []
  | (d, o1, o2, o3) :: rest =>
      match get_modified_py_files root fs d o1 o2 o3 with
      | .error e => .error e
      | .ok files =>
          match selectAll root fs rest with
          | .error e => .error e
          | .ok more => .ok (files ++ more)

/-- File-set resolution of `format_code` (src/format_code.py lines
213-225): fast mode (when `args.fast` is truthy) resolves via the
differential selector and yields `none` on an empty selection (the
short-circuit `return 0`); otherwise a non-empty explicit file list wins;
otherwise the directory paths themselves are the file set. -/
def resolveFiles (args : Args) (root : FsPath) (fs : FsPath → Bool)
    (dirs : List (FsPath × SpawnOutcome × SpawnOutcome × SpawnOutcome)) :
    Except SpawnErr (Option (List String)) :=
  if optTruthy args.fast then
    match selectAll root fs dirs with
    | .error e => .error e
    | .ok files =>
        if files.isEmpty then .ok none
        else .ok (some (files.map pathToString))
  else if !args.filenames.isEmpty then .ok (some args.filenames)
  else .ok (some (dirs.map (fun d => pathToString d.1)))

/-- The formatter loop of `format_code` (src/format_code.py lines
236-248): run each formatter in list order against its spawn oracle,
overwriting `final_code` with every nonzero exit code; a spawn fault
propagates and aborts the loop.  Returns the final code and the trace of
(formatter, command line) invocations. -/
def runFormatters (files : List String) (dry : Bool) (py : Option String)
    (fo : FormatterKind → SpawnOutcome) :
    List FormatterKind → Int → Except SpawnErr (Int × List (FormatterKind × List String))
  | [], final_code => .ok (final_code, [])
  | k :: rest, final_code =>
      match run_command (fo k) with
      | .error e => .error e
      | .ok result =>
          let final' := if result.code != 0 then result.code else final_code
          match runFormatters files dry py fo rest final' with
          | .error e => .error e
          | .ok (c, tr) => .ok (c, (k, formatter_cmd k files dry py) :: tr)

/-- `format_code` (src/format_code.py lines 209-251): resolve the file set
(short-circuiting to exit code 0 with no formatter invocations when fast
mode selects nothing), then run the four formatters in order, aggregating
exit codes last-nonzero-wins.  `fo` gives each formatter invocation's
spawn oracle.  Logging is out of scope and not modelled. -/
def format_code (args : Args) (root : FsPath) (fs : FsPath → Bool)
    (dirs : List (FsPath × SpawnOutcome × SpawnOutcome × SpawnOutcome))
    (fo : FormatterKind → SpawnOutcome) :
    Except SpawnErr (Int × List (FormatterKind × List String)) :=
  match resolveFiles args root fs dirs with
  | .error e => .error e
  | .ok none => .ok (0, [])
  | .ok (some files) => runFormatters files args.dry args.py fo formatterOrder 0

/-- The exit code of the last entry of a code sequence that is nonzero, or
`0` when every entry is zero (the specification's description of the
aggregation policy). -/
def lastNonzeroCode (cs : List Int) : Int :=
  ((cs.filter (fun c => c != 0)).getLast?).getD 0

/-! ### Basic list and association-list lemmas -/

theorem listGet_set_eq {α : Type} (l : List α) (i : Nat) (x : α) (h : i < l.length) :
    (l.set i x).get? i = some x := by
  induction l generalizing i with
  | nil => simp at h
  | cons a as ih =>
      cases i with
      | zero => rfl
      | succ i =>
          have hl : i < as.length := by simp at h; omega
          simpa using ih i hl

theorem listGet_set_ne {α : Type} (l : List α) (i j : Nat) (x : α) (h : i ≠ j) :
    (l.set i x).get? j = l.get? j := by
  induction l generalizing i j with
  | nil => simp
  | cons a as ih =>
      cases i with
      | zero =>
          cases j with
          | zero => exact absurd rfl h
          | succ j => rfl
      | succ i =>
          cases j with
          | zero => rfl
          | succ j => simpa using ih i j (fun he => h (by rw [he]))

theorem listGet_concat_length {α : Type} (l : List α) (x : α) :
    (l ++ [x]).get? l.length = some x := by
  induction l with
  | nil => rfl
  | cons a as ih => simp only [List.cons_append, List.length_cons, List.get?]; exact ih

theorem listGet_append_lt {α : Type} (l l' : List α) (j : Nat) (h : j < l.length) :
    (l ++ l').get? j = l.get? j := by
  induction l generalizing j with
  | nil => simp at h
  | cons a as ih =>
      cases j with
      | zero => rfl
      | succ j =>
          have hl : j < as.length := by simp at h; omega
          simpa using ih j hl

theorem envGet_envSet_self (e : Env) (k v : String) :
    envGet (envSet e k v) k = some v := by
  induction e with
  | nil => simp [envSet, envGet]
  | cons p rest ih =>
      obtain ⟨k1, v1⟩ := p
      by_cases hk : k1 = k
      · simp [envSet, hk, envGet]
      · simp [envSet, hk, envGet, ih]

theorem envGet_envSet_ne (e : Env) (k k' v : String) (h : k ≠ k') :
    envGet (envSet e k v) k' = envGet e k' := by
  induction e with
  | nil => simp [envSet, envGet, h]
  | cons p rest ih =>
      obtain ⟨k1, v1⟩ := p
      by_cases hk : k1 = k
      · subst hk; simp [envSet, envGet, h]
      · simp [envSet, hk, envGet, ih]

/-! ### The child environment built by one `run_command` call -/

theorem run_command_child_env (cmd : List String) (h : Heap) :
    (run_command_env_effect cmd h).1.env =
      envSet (envSet (envSet (h.get osEnvironRef) "PYTHONIOENCODING" "utf-8")
        "LC_ALL" "C.UTF-8") "LANG" "C.UTF-8" := by
  have hlen : h.dicts.length < (h.dicts ++ [h.get osEnvironRef]).length := by simp
  simp only [run_command_env_effect, get_env, dictCopy, dictSetItem, Heap.alloc,
    Heap.set, Heap.get]
  rw [listGet_set_eq _ _ _ (by simp)]
  rw [listGet_set_eq _ _ _ (by simp)]
  rw [listGet_set_eq _ _ _ (by simp)]
  rw [listGet_concat_length]
  rfl

theorem run_command_frame (cmd : List String) (h : Heap) (j : Nat)
    (hj : j < h.dicts.length) :
    ((run_command_env_effect cmd h).2).get j = h.get j := by
  have hne : h.dicts.length ≠ j := by omega
  simp only [run_command_env_effect, get_env, dictCopy, dictSetItem, Heap.alloc,
    Heap.set, Heap.get]
  rw [listGet_set_ne _ _ _ _ hne, listGet_set_ne _ _ _ _ hne,
    listGet_set_ne _ _ _ _ hne, listGet_append_lt _ _ _ hj]

/-! ### Selector membership -/

theorem pydedup_mem (a : String) (l : List String) : a ∈ pydedup l ↔ a ∈ l := by
  induction l with
  | nil => simp [pydedup]
  | cons x rest ih =>
      by_cases hx : x ∈ rest
      · rw [pydedup, if_pos hx]
        simp only [List.mem_cons, ih]
        exact ⟨Or.inr, fun hc => hc.elim (fun he => he ▸ hx) id⟩
      · rw [pydedup, if_neg hx]
        simp [List.mem_cons, ih]

theorem get_modified_mem (root : FsPath) (fs : FsPath → Bool) (dir : FsPath)
    (c1 c2 c3 : Int) (out1 err1 out2 err2 out3 err3 : String) :
    ∃ files,
      get_modified_py_files root fs dir (.ran c1 out1 err1) (.ran c2 out2 err2)
        (.ran c3 out3 err3) = .ok files ∧
      ∀ p, p ∈ files ↔
        ∃ cand ∈ splitlines out1 ++ splitlines out2 ++ splitlines out3,
          p = root ++ parseRel cand ∧ pathSuffix (lastName p) = ".py" ∧
          fs p = true ∧ dir.isPrefixOf p = true := by
  refine ⟨_, rfl, fun p => ?_⟩
  rw [List.mem_filterMap]
  constructor
  · rintro ⟨cand, hmem, heq⟩
    rw [pydedup_mem] at hmem
    refine ⟨cand, hmem, ?_⟩
    by_cases hcond : pathSuffix (lastName (root ++ parseRel cand)) = ".py" ∧
        fs (root ++ parseRel cand) = true ∧ dir.isPrefixOf (root ++ parseRel cand) = true
    · rw [if_pos hcond] at heq
      obtain rfl : root ++ parseRel cand = p := Option.some.inj heq
      exact ⟨rfl, hcond.1, hcond.2.1, hcond.2.2⟩
    · rw [if_neg hcond] at heq
      exact absurd heq (by simp)
  · rintro ⟨cand, hmem, rfl, h1, h2, h3⟩
    refine ⟨cand, (pydedup_mem _ _).mpr hmem, ?_⟩
    rw [if_pos ⟨h1, h2, h3⟩]

/-! ### The formatter loop -/

theorem getLast?_cons_isSome {α : Type} (d : α) (l : List α) :
    ((d :: l).getLast?).isSome = true := by
  induction l generalizing d with
  | nil => rfl
  | cons e l ih => rw [List.getLast?_cons_cons]; exact ih e

theorem getLast_filter_cons (c : Int) (cs : List Int) (a : Int) :
    (((c :: cs).filter (fun x => x != 0)).getLast?).getD a
      = ((cs.filter (fun x => x != 0)).getLast?).getD (if c != 0 then c else a) := by
  by_cases hc : c = 0
  · subst hc; simp
  · have hc' : (c != 0) = true := by simpa using hc
    rw [List.filter_cons_of_pos (by simpa using hc), if_pos hc']
    cases hf : cs.filter (fun x => x != 0) with
    | nil => simp
    | cons d l =>
        obtain ⟨y, hy⟩ := Option.isSome_iff_exists.mp (getLast?_cons_isSome d l)
        rw [List.getLast?_cons_cons, hy]
        rfl

theorem run_command_ran (c : Int) (s e : String) :
    run_command (.ran c s e) = .ok ⟨c, s, e⟩ := rfl

theorem runFormatters_spec (files : List String) (dry : Bool) (py : Option String)
    (fo : FormatterKind → SpawnOutcome) (codes : FormatterKind → Int)
    (outs errs : FormatterKind → String)
    (hfo : ∀ k, fo k = .ran (codes k) (outs k) (errs k)) (ks : List FormatterKind) :
    ∀ a : Int,
      runFormatters files dry py fo ks a =
        .ok (((((ks.map codes).filter (fun x => x != 0)).getLast?).getD a),
          ks.map (fun k => (k, formatter_cmd k files dry py))) := by
  induction ks with
  | nil => intro a; simp [runFormatters]
  | cons k rest ih =>
      intro a
      have hrec := ih (if (codes k) != 0 then codes k else a)
      simp only [runFormatters, hfo k, run_command_ran, hrec, List.map_cons,
        getLast_filter_cons]

/-! ### Claims -/

/-- C1: the final exit code returned by the orchestrator starts at 0 and is
overwritten by each adapter's nonzero exit code in execution order, so it
equals the exit code of the last adapter whose exit code was nonzero, and 0
when every adapter exits 0; a later adapter exiting 0 does not reset a
prior nonzero code. -/
theorem format_code_last_nonzero_wins (args : Args) (root : FsPath)
    (fs : FsPath → Bool)
    (dirs : List (FsPath × SpawnOutcome × SpawnOutcome × SpawnOutcome))
    (fo : FormatterKind → SpawnOutcome) (files : List String)
    (codes : FormatterKind → Int) (outs errs : FormatterKind → String)
    (hres : resolveFiles args root fs dirs = .ok (some files))
    (hfo : ∀ k, fo k = .ran (codes k) (outs k) (errs k)) :
    (format_code args root fs dirs fo).map Prod.fst =
      .ok (lastNonzeroCode [codes FormatterKind.autoflake, codes FormatterKind.isort,
        codes FormatterKind.black, codes FormatterKind.ruff]) := by
  simp only [format_code, hres]
  rw [runFormatters_spec files args.dry args.py fo codes outs errs hfo formatterOrder 0]
  simp [Except.map, formatterOrder, lastNonzeroCode]

/-- C1 witness: adapters returning exit codes [0, 3, 0, 5] yield final exit
code 5. -/
theorem format_code_last_nonzero_wins_witness :
    (format_code ⟨false, none, false, none, ["a.py"]⟩ [] (fun _ => false) []
        (fun k => SpawnOutcome.ran
          (match k with
            | FormatterKind.autoflake => 0
            | FormatterKind.isort => 3
            | FormatterKind.black => 0
            | FormatterKind.ruff => 5) "" "")).map Prod.fst = .ok 5 := by
  have h := format_code_last_nonzero_wins ⟨false, none, false, none, ["a.py"]⟩ []
    (fun _ => false) []
    (fun k => SpawnOutcome.ran
      (match k with
        | FormatterKind.autoflake => 0
        | FormatterKind.isort => 3
        | FormatterKind.black => 0
        | FormatterKind.ruff => 5) "" "") ["a.py"]
    (fun k => match k with
      | FormatterKind.autoflake => 0
      | FormatterKind.isort => 3
      | FormatterKind.black => 0
      | FormatterKind.ruff => 5) (fun _ => "") (fun _ => "") rfl (fun _ => rfl)
  rw [h]
  rfl

/-- C2 counterexample: when the branch-diff git invocation spawns but exits
with the nonzero status 128 (empty stdout), the selector does NOT propagate
a fault: it returns the ordinary empty result, indistinguishable from "no
files changed".  This refutes the claim that a git run exiting nonzero
propagates as a fault. -/
theorem selector_nonzero_exit_yields_empty_ok :
    get_modified_py_files ["repo"] (fun _ => true) ["repo", "src"]
      (.ran 128 "" "fatal: bad revision") (.ran 0 "" "") (.ran 0 "" "")
      = .ok [] := rfl

/-- C2 amended: the selector propagates a fault if and only if one of its
three git invocations cannot be spawned at all; a git process that runs but
exits nonzero is not a fault — its (typically empty) stdout is used as the
diff output. -/
theorem selector_fault_iff_spawn_fault (root : FsPath) (fs : FsPath → Bool)
    (dir : FsPath) (o1 o2 o3 : SpawnOutcome) :
    (∃ e, get_modified_py_files root fs dir o1 o2 o3 = Except.error e) ↔
      (o1 = SpawnOutcome.fault ∨ o2 = SpawnOutcome.fault ∨ o3 = SpawnOutcome.fault) := by
  cases o1 <;> cases o2 <;> cases o3 <;>
    simp [get_modified_py_files, git_diff, run_command, subprocess_run]

/-- C3: the selector's subtree-containment check is path-component-aware:
every selected path has the managed subtree as a component-wise prefix, and
a file under a sibling directory sharing only a textual prefix with the
subtree (subtree repo/src versus file repo/src2/foo.py, accepted by the raw
string-prefix test) is excluded. -/
theorem selector_containment_path_aware :
    (∀ (root : FsPath) (fs : FsPath → Bool) (dir : FsPath)
        (o1 o2 o3 : SpawnOutcome) (files : List FsPath),
        get_modified_py_files root fs dir o1 o2 o3 = .ok files →
        ∀ p ∈ files, dir <+: p)
    ∧ stringPrefixContains ["repo", "src"] ["repo", "src2", "foo.py"] = true
    ∧ get_modified_py_files ["repo"] (fun p => p == ["repo", "src2", "foo.py"])
        ["repo", "src"] (.ran 0 "src2/foo.py\n" "") (.ran 0 "" "") (.ran 0 "" "")
        = .ok [] := by
  refine ⟨?_, rfl, rfl⟩
  intro root fs dir o1 o2 o3 files heq p hp
  cases o1 with
  | fault => simp [get_modified_py_files, git_diff, run_command, subprocess_run] at heq
  | ran c1 out1 err1 =>
  cases o2 with
  | fault => simp [get_modified_py_files, git_diff, run_command, subprocess_run] at heq
  | ran c2 out2 err2 =>
  cases o3 with
  | fault => simp [get_modified_py_files, git_diff, run_command, subprocess_run] at heq
  | ran c3 out3 err3 =>
  obtain ⟨files', heq', hmem⟩ :=
    get_modified_mem root fs dir c1 c2 c3 out1 err1 out2 err2 out3 err3
  rw [heq'] at heq
  obtain rfl : files' = files := Except.ok.inj heq
  obtain ⟨cand, hcand, hpe, hsuf, hfs, hpre⟩ := (hmem p).mp hp
  exact List.isPrefixOf_iff_prefix.mp hpre

/-- C3 witness: a file genuinely under the subtree is selected, and the
general containment theorem applies to it. -/
theorem selector_containment_path_aware_witness :
    ["repo", "src"] <+: ["repo", "src", "ok.py"] :=
  selector_containment_path_aware.1 ["repo"]
    (fun p => p == ["repo", "src", "ok.py"]) ["repo", "src"]
    (.ran 0 "src/ok.py\n" "") (.ran 0 "" "") (.ran 0 "" "")
    [["repo", "src", "ok.py"]] rfl ["repo", "src", "ok.py"] (by simp)

/-- C4: when fast (differential) mode is requested and the selected file
set is empty, the orchestrator returns exit code 0 immediately with zero
adapter invocations, regardless of any explicit file arguments (fast mode
takes precedence over them). -/
theorem format_code_fast_empty_short_circuit (args : Args) (root : FsPath)
    (fs : FsPath → Bool)
    (dirs : List (FsPath × SpawnOutcome × SpawnOutcome × SpawnOutcome))
    (fo : FormatterKind → SpawnOutcome)
    (hfast : optTruthy args.fast = true)
    (hsel : selectAll root fs dirs = .ok []) :
    format_code args root fs dirs fo = .ok (0, []) := by
  simp [format_code, resolveFiles, hfast, hsel]

/-- C4 witness: with fast mode on, explicit file arguments present and all
three diffs empty, the result is exit code 0 and an empty invocation trace
(the adapter oracle is a spawn fault, so any adapter invocation would have
errored). -/
theorem format_code_fast_empty_short_circuit_witness :
    format_code ⟨false, some "main", false, none, ["explicit.py"]⟩ ["repo"]
      (fun _ => true)
      [(["repo", "src"], .ran 0 "" "", .ran 0 "" "", .ran 0 "" "")]
      (fun _ => SpawnOutcome.fault) = .ok (0, []) :=
  format_code_fast_empty_short_circuit ⟨false, some "main", false, none, ["explicit.py"]⟩
    ["repo"] (fun _ => true)
    [(["repo", "src"], .ran 0 "" "", .ran 0 "" "", .ran 0 "" "")]
    (fun _ => SpawnOutcome.fault) rfl rfl

/-- C5: the selector returns exactly those paths obtained by unioning the
three diff outputs (duplicates collapsed), resolving each candidate against
the repository root, and keeping it iff its suffix is `.py`, it exists on
disk, and it lies within the managed subtree. -/
theorem selector_membership_characterization (root : FsPath) (fs : FsPath → Bool)
    (dir : FsPath) (c1 c2 c3 : Int) (out1 err1 out2 err2 out3 err3 : String) :
    ∃ files,
      get_modified_py_files root fs dir (.ran c1 out1 err1) (.ran c2 out2 err2)
        (.ran c3 out3 err3) = .ok files ∧
      ∀ p, p ∈ files ↔
        ∃ cand ∈ splitlines out1 ++ splitlines out2 ++ splitlines out3,
          p = root ++ parseRel cand ∧ pathSuffix (lastName p) = ".py" ∧
          fs p = true ∧ dir.isPrefixOf p = true :=
  get_modified_mem root fs dir c1 c2 c3 out1 err1 out2 err2 out3 err3

/-- C6: whenever the pipeline runs (the fast-mode empty-selection
short-circuit is not taken and every adapter process can be spawned), the
orchestrator invokes the adapters exactly once each, in the fixed order
autoflake, isort, black, ruff. -/
theorem format_code_fixed_adapter_order (args : Args) (root : FsPath)
    (fs : FsPath → Bool)
    (dirs : List (FsPath × SpawnOutcome × SpawnOutcome × SpawnOutcome))
    (fo : FormatterKind → SpawnOutcome) (files : List String)
    (codes : FormatterKind → Int) (outs errs : FormatterKind → String)
    (hres : resolveFiles args root fs dirs = .ok (some files))
    (hfo : ∀ k, fo k = .ran (codes k) (outs k) (errs k)) :
    ∃ c tr, format_code args root fs dirs fo = .ok (c, tr) ∧
      tr.map Prod.fst = [FormatterKind.autoflake, FormatterKind.isort,
        FormatterKind.black, FormatterKind.ruff] := by
  simp only [format_code, hres]
  rw [runFormatters_spec files args.dry args.py fo codes outs errs hfo formatterOrder 0]
  exact ⟨_, _, rfl, by simp [formatterOrder]⟩

/-- C6 witness: on a concrete run the invocation trace is exactly
[autoflake, isort, black, ruff]. -/
theorem format_code_fixed_adapter_order_witness :
    (format_code ⟨false, none, false, none, ["a.py"]⟩ [] (fun _ => false) []
        (fun _ => SpawnOutcome.ran 0 "" "")).map (fun p => p.2.map Prod.fst)
      = .ok [FormatterKind.autoflake, FormatterKind.isort, FormatterKind.black,
          FormatterKind.ruff] := by
  obtain ⟨c, tr, heq, hord⟩ :=
    format_code_fixed_adapter_order ⟨false, none, false, none, ["a.py"]⟩ []
      (fun _ => false) [] (fun _ => SpawnOutcome.ran 0 "" "") ["a.py"]
      (fun _ => 0) (fun _ => "") (fun _ => "") rfl (fun _ => rfl)
  rw [heq]
  simp [Except.map, hord]

/-- C7: the Process Runner never raises because the child exits nonzero:
for every child exit status, `run_command` returns `Except.ok` with the
verbatim exit status (and outputs) carried as ordinary data in the
`RunResult`. -/
theorem run_command_no_raise_on_nonzero (code : Int) (out err : String) :
    run_command (SpawnOutcome.ran code out err) =
      Except.ok { code := code, stdout := out, stderr := err } := rfl

/-- C8: the environment handed to every spawned child binds the three
UTF-8/locale variables to their forced values, whatever the ambient host
environment (the heap `h`, hence `os.environ`) contains. -/
theorem run_command_forces_utf8_env (cmd : List String) (h : Heap) :
    envGet (run_command_env_effect cmd h).1.env "PYTHONIOENCODING" = some "utf-8" ∧
    envGet (run_command_env_effect cmd h).1.env "LC_ALL" = some "C.UTF-8" ∧
    envGet (run_command_env_effect cmd h).1.env "LANG" = some "C.UTF-8" := by
  rw [run_command_child_env cmd h]
  refine ⟨?_, ?_, ?_⟩
  · rw [envGet_envSet_ne _ _ _ _ (by decide), envGet_envSet_ne _ _ _ _ (by decide),
      envGet_envSet_self]
  · rw [envGet_envSet_ne _ _ _ _ (by decide), envGet_envSet_self]
  · rw [envGet_envSet_self]

/-- C9: in dry-run mode every adapter builds a check/report-only command
line: autoflake omits `--in-place`, isort adds `--diff --check-only`, black
adds `--check`, and ruff adds `--diff` and not `--fix`. -/
theorem dry_run_cmds_check_only (files : List String) (py : Option String)
    (h1 : "--in-place" ∉ files) (h2 : "--fix" ∉ files) :
    "--in-place" ∉ autoflake_cmd files true ∧
    "--diff" ∈ isort_cmd files true py ∧
    "--check-only" ∈ isort_cmd files true py ∧
    "--check" ∈ black_cmd files true py ∧
    "--diff" ∈ ruff_cmd files true ∧
    "--fix" ∉ ruff_cmd files true := by
  refine ⟨?_, ?_, ?_, ?_, ?_, ?_⟩
  · simp [autoflake_cmd, sysExecutable, h1]
  · by_cases hp : optTruthy py <;> simp [isort_cmd, hp]
  · by_cases hp : optTruthy py <;> simp [isort_cmd, hp]
  · by_cases hp : optTruthy py <;> simp [black_cmd, hp]
  · simp [ruff_cmd]
  · simp [ruff_cmd, sysExecutable, h2]

/-- C9 witness: the properties at a concrete file list and version hint. -/
theorem dry_run_cmds_check_only_witness :
    "--in-place" ∉ autoflake_cmd ["a.py"] true ∧
    "--diff" ∈ isort_cmd ["a.py"] true (some "311") ∧
    "--check-only" ∈ isort_cmd ["a.py"] true (some "311") ∧
    "--check" ∈ black_cmd ["a.py"] true (some "311") ∧
    "--diff" ∈ ruff_cmd ["a.py"] true ∧
    "--fix" ∉ ruff_cmd ["a.py"] true :=
  dry_run_cmds_check_only ["a.py"] (some "311") (by decide) (by decide)

/-- C10: running a command never mutates the calling process's own
environment: after `run_command`, the `os.environ` dict on the heap is
unchanged (the UTF-8 overrides are applied to a fresh copy only). -/
theorem run_command_preserves_caller_env (cmd : List String) (h : Heap)
    (hne : h.dicts ≠ []) :
    ((run_command_env_effect cmd h).2).get osEnvironRef = h.get osEnvironRef := by
  have h0 : 0 < h.dicts.length := by
    cases hd : h.dicts with
    | nil => exact absurd hd hne
    | cons a as => simp [hd]
  exact run_command_frame cmd h 0 h0

/-- C10 witness: a concrete ambient environment is unchanged by a
`run_command` call. -/
theorem run_command_preserves_caller_env_witness :
    ((run_command_env_effect ["git", "diff"] ⟨[[("PATH", "/usr/bin")]]⟩).2).get osEnvironRef
      = (⟨[[("PATH", "/usr/bin")]]⟩ : Heap).get osEnvironRef :=
  run_command_preserves_caller_env ["git", "diff"] ⟨[[("PATH", "/usr/bin")]]⟩ (by simp)
